import Mathlib

/-!
Verification development for the prometheus-webhook-collector repository
(source file src/app.py).  The Python code is shallowly embedded below:
JSON-like Python values become the inductive type JSON, Python exceptions
become the PyErr error type, the metric instances and their registry become
an explicit store, and the cachetools.TTLCache subclass used as the metrics
cache becomes an explicit state (LRU-ordered association list plus an
expiry queue).  External library calls with open-ended semantics
(re.search, re.match, jmespath.search) are passed in as function
parameters; small concrete models of them (literal-pattern search,
dot-separated field lookup) are provided for concrete scenarios.
-/

set_option autoImplicit false

namespace WebhookCollector

/-- Python exceptions that the embedded code can raise. -/
inductive PyErr where
  | keyError
  | valueError
  | typeError
  | assertionError
  | stopIteration
  | attributeError
deriving DecidableEq, Repr

/-- JSON-like Python values (the payloads, extractor results, label dicts).
Numbers are modelled as rationals (Python floats are the code's numbers;
the claims under study are algebraic, not about rounding). -/
inductive JSON where
  | null
  | bool (b : Bool)
  | num (q : ℚ)
  | str (s : String)
  | arr (xs : List JSON)
  | obj (fields : List (String × JSON))

/-- Python truthiness on JSON-like values: None, False, 0, empty string,
empty list and empty dict are falsy. -/
def truthy : JSON → Bool
  | .null => false
  | .bool b => b
  | .num q => q != 0
  | .str s => s != ""
  | .arr xs => !xs.isEmpty
  | .obj fs => !fs.isEmpty

/-- Association-list lookup, modelling Python dict indexing. -/
def jlookup {α : Type} (k : String) : List (String × α) → Option α
  | [] => none
  | (k', v) :: rest => if k' = k then some v else jlookup k rest

/-- Update or append one key, modelling Python dict item assignment
(existing keys keep their position, new keys are appended). -/
def setKey (fs : List (String × JSON)) (k : String) (v : JSON) :
    List (String × JSON) :=
  if (jlookup k fs).isSome then
    fs.map (fun p => if p.1 = k then (k, v) else p)
  else fs ++ [(k, v)]

/-- Merge dict b into dict a, later keys overwriting: Python x7b**a, **bx7d. -/
def mergeInto (a b : List (String × JSON)) : List (String × JSON) :=
  b.foldl (fun acc p => setKey acc p.1 p.2) a

/-- functools.reduce(lambda a, b: x7b**a, **bx7d, xs): TypeError on an empty
list, the sole element unchanged on a singleton, and each merge step
requires both operands to be dicts. -/
def mergeDicts : List JSON → Except PyErr JSON
  | [] => .error .typeError
  | x :: xs =>
    xs.foldlM
      (fun acc b =>
        match acc, b with
        | .obj fa, .obj fb => .ok (.obj (mergeInto fa fb))
        | _, _ => .error .typeError)
      x

/-- Decimal rendering of a rational for json.dumps (integers without a
fractional part; the exact float formatting is irrelevant to the claims,
only determinism matters, since the serialized text is consumed by the
regex-search parameter). -/
def dumpNum (q : ℚ) : String :=
  if q.den = 1 then toString q.num else toString q

mutual

/-- json.dumps: serialize a JSON value to text (string escaping elided;
the result only feeds the regex-search parameter). -/
def dumps : JSON → String
  | .null => "null"
  | .bool true => "true"
  | .bool false => "false"
  | .num q => dumpNum q
  | .str s => "\x22" ++ s ++ "\x22"
  | .arr xs => "[" ++ dumpsList xs ++ "]"
  | .obj fs => "\x7b" ++ dumpsFields fs ++ "\x7d"

def dumpsList : List JSON → String
  | [] => ""
  | [x] => dumps x
  | x :: xs => dumps x ++ ", " ++ dumpsList xs

def dumpsFields : List (String × JSON) → String
  | [] => ""
  | [(k, v)] => "\x22" ++ k ++ "\x22: " ++ dumps v
  | (k, v) :: fs => "\x22" ++ k ++ "\x22: " ++ dumps v ++ ", " ++ dumpsFields fs

end

/-- str.strip("/"): drop all leading and trailing slash characters. -/
def stripSlashes (s : String) : String :=
  let cs := (s.toList.dropWhile (· = '/')).reverse.dropWhile (· = '/')
  String.mk cs.reverse

/-- Whether one character list is a prefix of another. -/
def listPrefixB : List Char → List Char → Bool
  | [], _ => true
  | _ :: _, [] => false
  | a :: as, b :: bs => a == b && listPrefixB as bs

/-- str.startswith("/"): the first character is a slash. -/
def startsWithSlash (s : String) : Bool :=
  match s.toList with
  | [] => false
  | c :: _ => c == '/'

/-- Whether the pattern occurs as a contiguous substring of the text. -/
def occursInB (pat : List Char) : List Char → Bool
  | [] => listPrefixB pat []
  | c :: rest => listPrefixB pat (c :: rest) || occursInB pat rest

/-- Split a string at dots, as str.split(".") of a dotted query path. -/
def splitDotsGo : List Char → List Char → List String
  | [], acc => [String.mk acc.reverse]
  | c :: rest, acc =>
    if c == '.' then String.mk acc.reverse :: splitDotsGo rest []
    else splitDotsGo rest (c :: acc)

/-- str.split("."): dotted-path components. -/
def splitDots (s : String) : List String := splitDotsGo s.toList []

/-- The result of a successful re.search: the tuple of capture groups,
where a group that did not participate in the match is none
(Match.groups(default) substitutes the default for those). -/
structure RMatch where
  groups : List (Option String)
deriving DecidableEq, Repr

/-- One entry of a configured extractor chain: in the Python config this is
either None / an empty string (falsy) or a query string. -/
inductive Stage where
  | none
  | str (s : String)
deriving DecidableEq, Repr

/-- Python truthiness of a stage entry. -/
def stageFalsy : Stage → Bool
  | .none => true
  | .str s => s = ""

/-- One iteration of the inner loop of run_extractor (src/app.py lines
102-112), acting on the running intermediate value prev.  The regex search
(re.search) and the structured query (jmespath.search) are parameters. -/
def runStage (search : String → String → Option RMatch)
    (jsearch : String → JSON → JSON) (default : JSON)
    (prev : JSON) : Stage → Except PyErr JSON
  | .none => .ok default
  | .str s =>
    if s = "" then .ok default
    else if startsWithSlash s then
      match search (stripSlashes s) (dumps prev) with
      | Option.none => .ok JSON.null
      | some m =>
        match m.groups with
        | [] => .error .stopIteration
        | g :: _ => .ok (match g with | Option.none => default | some t => .str t)
    else
      let r := jsearch s prev
      .ok (if truthy r then r else default)

/-- The inner loop of run_extractor: fold the stages of one chain over the
document, threading each stage's output into the next stage. -/
def runChain (search : String → String → Option RMatch)
    (jsearch : String → JSON → JSON) (default : JSON)
    (data : JSON) (stages : List Stage) : Except PyErr JSON :=
  stages.foldlM (runStage search jsearch default) data

/-- An element of the outer extractor list: either a bare stage or a nested
list (a chain whose stages feed one another). -/
inductive Chain0 where
  | stage (s : Stage)
  | chain (ss : List Stage)
deriving DecidableEq, Repr

/-- The extractors argument of run_extractor: either a single non-list
value (wrapped into a one-element list by the code) or a list of
stages/chains. -/
inductive ExtractorSpec where
  | single (s : Stage)
  | specList (cs : List Chain0)
deriving DecidableEq, Repr

/-- Normalization performed by run_extractor: a non-list spec becomes a
one-element list, and each non-list element becomes a one-stage chain. -/
def toChains : ExtractorSpec → List (List Stage)
  | .single s => [[s]]
  | .specList cs => cs.map (fun c => match c with | .stage s => [s] | .chain ss => ss)

/-- run_extractor (src/app.py lines 91-115): evaluate every chain against
the original document, collect the results, and unwrap a singleton result
list to the bare value. -/
def run_extractor (search : String → String → Option RMatch)
    (jsearch : String → JSON → JSON) (spec : ExtractorSpec)
    (data default : JSON) : Except PyErr JSON := do
  let rs ← (toChains spec).mapM (runChain search jsearch default data)
  match rs with
  | [r] => pure r
  | rs => pure (.arr rs)

/-- Models Python re.search restricted to patterns that are plain literals
(no metacharacters, hence no capture groups): a match is found iff the
pattern occurs as a substring of the text, and its groups tuple is empty. -/
def reSearchLit (pat text : String) : Option RMatch :=
  if pat ≠ "" ∧ occursInB pat.toList text.toList then some ⟨[]⟩ else none

/-- Models jmespath.search restricted to queries that are dot-separated
identifier paths: walk the fields of nested objects, yielding null when a
step is missing or the current value is not an object. -/
def jmespathFieldSearch (q : String) (j : JSON) : JSON :=
  go (splitDots q) j
where
  go : List String → JSON → JSON
    | [], j => j
    | f :: rest, .obj fs =>
      match jlookup f fs with
      | some v => go rest v
      | Option.none => JSON.null
    | _ :: _, _ => JSON.null

/-- Models re.match for literal patterns: an anchored-at-the-start match,
i.e. the pattern is a prefix of the candidate string. -/
def reMatchLit (pat s : String) : Bool := listPrefixB pat.toList s.toList

mutual

/-- Structural equality on JSON values (Python object equality, used for
dict keying of metric children by their label-value tuples). -/
def jsonEqB : JSON → JSON → Bool
  | .null, .null => true
  | .bool a, .bool b => a == b
  | .num a, .num b => a == b
  | .str a, .str b => a == b
  | .arr a, .arr b => jarrEqB a b
  | .obj a, .obj b => jobjEqB a b
  | _, _ => false

def jarrEqB : List JSON → List JSON → Bool
  | [], [] => true
  | a :: as, b :: bs => jsonEqB a b && jarrEqB as bs
  | _, _ => false

def jobjEqB : List (String × JSON) → List (String × JSON) → Bool
  | [], [] => true
  | (ka, va) :: as, (kb, vb) :: bs => ka == kb && jsonEqB va vb && jobjEqB as bs
  | _, _ => false

end

/-- The three metric kinds the code dispatches on. -/
inductive MKind where
  | gauge
  | counter
  | info
deriving DecidableEq, Repr

/-- A prometheus_client metric instance (Gauge / Counter / Info): the
declared label names and a family of children keyed by label-value tuples.
Numeric children carry the sample value; info children carry the payload
dict. -/
structure Instance where
  kind : MKind
  name : String
  help : JSON
  labelnames : List String
  children : List (List JSON × ℚ)
  infoChildren : List (List JSON × List (String × JSON))

/-- Code-point lexicographic strict order on character lists (Python
string comparison). -/
def charsLtB : List Char → List Char → Bool
  | [], [] => false
  | [], _ :: _ => true
  | _ :: _, [] => false
  | a :: as, b :: bs =>
    if a.toNat < b.toNat then true
    else if b.toNat < a.toNat then false
    else charsLtB as bs

/-- Insertion sort on strings, modelling Python sorted() on label names. -/
def insertSorted (s : String) : List String → List String
  | [] => [s]
  | x :: xs =>
    if charsLtB x.toList s.toList then x :: insertSorted s xs else s :: x :: xs

/-- Python sorted() on a list of strings. -/
def sortStrings : List String → List String
  | [] => []
  | x :: xs => insertSorted x (sortStrings xs)

/-- Metric.labels(**labels): prometheus_client raises ValueError when the
sorted keyword names differ from the sorted declared label names; otherwise
the label-value tuple is the values in declared-name order. -/
def labelsFor (inst : Instance) (fields : List (String × JSON)) :
    Except PyErr (List JSON) :=
  if sortStrings (fields.map (·.1)) = sortStrings inst.labelnames then
    .ok (inst.labelnames.map (fun n => (jlookup n fields).getD JSON.null))
  else .error .valueError

/-- Current sample value of the child for a label-value tuple (a fresh
child starts at 0). -/
def childVal (inst : Instance) (lv : List JSON) : ℚ :=
  match inst.children.find? (fun p => jarrEqB p.1 lv) with
  | some p => p.2
  | Option.none => 0

/-- Store a sample value for a label-value tuple, creating the child if
absent. -/
def setChildList (children : List (List JSON × ℚ)) (lv : List JSON) (q : ℚ) :
    List (List JSON × ℚ) :=
  match children with
  | [] => [(lv, q)]
  | p :: rest =>
    if jarrEqB p.1 lv then (p.1, q) :: rest else p :: setChildList rest lv q

/-- Update one child of an instance. -/
def setChild (inst : Instance) (lv : List JSON) (q : ℚ) : Instance :=
  { inst with children := setChildList inst.children lv q }

/-- Store an info payload for a label-value tuple. -/
def setInfoChildList (children : List (List JSON × List (String × JSON)))
    (lv : List JSON) (payload : List (String × JSON)) :
    List (List JSON × List (String × JSON)) :=
  match children with
  | [] => [(lv, payload)]
  | p :: rest =>
    if jarrEqB p.1 lv then (p.1, payload) :: rest
    else p :: setInfoChildList rest lv payload

/-- The child-level update applied by setup_metric after labels(...):
set(value) on a gauge child, inc(value) on a gauge or counter child, or
info(payload) on an info child. -/
inductive Meth where
  | set (v : ℚ)
  | inc (v : ℚ)
  | infoM (payload : JSON)

/-- Dispatch a child method call on an instance, as prometheus_client
children behave: Gauge children have set and inc (inc accepts any amount),
Counter children have inc and raise ValueError on a negative amount before
mutating, Info children have info which rejects non-dict payloads and
payload keys clashing with label names; any other combination is an
AttributeError. -/
def callMethod (inst : Instance) (lv : List JSON) : Meth → Except PyErr Instance
  | .set v =>
    match inst.kind with
    | .gauge => .ok (setChild inst lv v)
    | _ => .error .attributeError
  | .inc v =>
    match inst.kind with
    | .gauge => .ok (setChild inst lv (childVal inst lv + v))
    | .counter =>
      if v < 0 then .error .valueError
      else .ok (setChild inst lv (childVal inst lv + v))
    | .info => .error .attributeError
  | .infoM payload =>
    match inst.kind with
    | .info =>
      match payload with
      | .obj fs =>
        if fs.any (fun p => inst.labelnames.contains p.1) then .error .valueError
        else .ok { inst with infoChildren := setInfoChildList inst.infoChildren lv fs }
      | _ => .error .attributeError
    | _ => .error .attributeError

/-- The process store of metric instances: instance ids are positions in
this list.  The registry is the list of currently registered ids. -/
abbrev Store := List Instance

/-- CollectorRegistry.register, as performed by the Gauge/Counter/Info
constructors: raises ValueError when an already registered collector
provides the same metric name, otherwise appends the new instance to the
store and its id to the registry. -/
def registerInstance (store : Store) (registry : List ℕ) (inst : Instance) :
    Store × List ℕ × Except PyErr ℕ :=
  if registry.any (fun i => ((store.get? i).map (fun x => x.name == inst.name)).getD false) then
    (store, registry, .error .valueError)
  else (store ++ [inst], registry ++ [store.length], .ok store.length)

/-- c.labels(**labels).method(...) on the instance with id iid: resolve the
label-value tuple, run the child method, and write the mutated instance
back to the store. -/
def applyMeth (store : Store) (registry : List ℕ) (iid : ℕ)
    (fields : List (String × JSON)) (m : Meth) :
    Store × List ℕ × Except PyErr ℕ :=
  match store.get? iid with
  | Option.none => (store, registry, .error .keyError)
  | some inst =>
    match labelsFor inst fields with
    | .error e => (store, registry, .error e)
    | .ok lv =>
      match callMethod inst lv m with
      | .error e => (store, registry, .error e)
      | .ok inst' => (store.set iid inst', registry, .ok iid)

/-- old_instance or Kind(...) followed by the child call: reuse the given
instance when present (no constructor, no registration), otherwise
construct and register a fresh instance of the requested kind and then
apply the child call to it.  A failure of the child call after
construction leaves the fresh instance registered, as in the source. -/
def createOrReuse (store : Store) (registry : List ℕ) (old : Option ℕ)
    (kind : MKind) (metric_name : String) (help : JSON)
    (fields : List (String × JSON)) (m : Meth) :
    Store × List ℕ × Except PyErr ℕ :=
  match old with
  | some iid => applyMeth store registry iid fields m
  | Option.none =>
    let inst : Instance :=
      ⟨kind, metric_name, help, fields.map (·.1), [], []⟩
    match registerInstance store registry inst with
    | (store', registry', .error e) => (store', registry', .error e)
    | (store', registry', .ok iid) => applyMeth store' registry' iid fields m

/-- setup_metric (src/app.py lines 118-135): assert the kind is a string,
unpack the label dict (Python unpacking of zip(* x7b x7d .items()) raises
ValueError on an empty dict and AttributeError on a non-dict), then
dispatch on the kind string, reusing old_instance whenever it is supplied;
an unsupported kind string raises ValueError. -/
def setup_metric (store : Store) (registry : List ℕ) (m_type : JSON)
    (metric_name : String) (help : JSON) (labels : JSON) (value : ℚ)
    (old_instance : Option ℕ) : Store × List ℕ × Except PyErr ℕ :=
  match m_type with
  | .str t =>
    match labels with
    | .obj fields =>
      if fields.isEmpty then (store, registry, .error .valueError)
      else if t = "gauge" then
        createOrReuse store registry old_instance .gauge metric_name help fields (.set value)
      else if t = "counter" then
        createOrReuse store registry old_instance .counter metric_name help fields (.inc value)
      else if t = "info" then
        createOrReuse store registry old_instance .info metric_name help fields (.infoM (.num value))
      else (store, registry, .error .valueError)
    | _ => (store, registry, .error .attributeError)
  | _ => (store, registry, .error .assertionError)

/-- Value of a run of decimal digits, none when the run is empty or a
non-digit appears. -/
def digitsVal? (cs : List Char) : Option ℕ :=
  if cs.isEmpty then none
  else cs.foldlM (fun acc c => if c.isDigit then some (acc * 10 + (c.toNat - 48)) else none) 0

/-- Parse a decimal numeric literal as Python float() does on strings
(optional sign, digits, optional fractional part; exotic forms such as
exponents or inf are not needed by the code under study). -/
def parseNumStr? (s : String) : Option ℚ :=
  let t := (s.toList.dropWhile Char.isWhitespace).reverse.dropWhile Char.isWhitespace
  let t := t.reverse
  let (sgn, t) : ℚ × List Char :=
    match t with
    | '-' :: r => (-1, r)
    | '+' :: r => (1, r)
    | r => (1, r)
  let (ip, rest) := t.span (·.isDigit)
  match rest with
  | [] => (digitsVal? ip).map (fun n => sgn * n)
  | '.' :: fp =>
    if fp.all (·.isDigit) ∧ (ip ≠ [] ∨ fp ≠ []) then
      let ipv : ℕ := (digitsVal? ip).getD 0
      let fpv : ℕ := (digitsVal? fp).getD 0
      some (sgn * ((ipv : ℚ) + (fpv : ℚ) / ((10 : ℚ) ^ fp.length)))
    else none
  | _ => none

/-- Python float(x) applied to a JSON-like value: numbers pass through,
booleans coerce, numeric strings parse (ValueError otherwise), and None,
lists and dicts raise TypeError. -/
def pyFloat : JSON → Except PyErr ℚ
  | .num q => .ok q
  | .bool b => .ok (if b then 1 else 0)
  | .str s =>
    match parseNumStr? s with
    | some q => .ok q
    | Option.none => .error .valueError
  | .null => .error .typeError
  | .arr _ => .error .typeError
  | .obj _ => .error .typeError

/-- The dict the route stores per cache key: the metric instance id and the
last extracted fields. -/
structure CEntry where
  iid : ℕ
  name : String
  help : JSON
  mtype : JSON
  value : ℚ
  labels : JSON

/-- A cache slot: the stored entry together with its expiry deadline
(the expires field of the cachetools link). -/
structure Slot where
  entry : CEntry
  expires : ℕ

/-- The state of the cachetools.TTLCache underlying the Cache subclass:
lru is the data in use order (head = least recently used, as the internal
links ordered dict), expq is the key sequence in write order (the expiry
linked list: constant ttl makes write order the expiry order). -/
structure TTLCacheSt where
  maxsize : ℕ
  ttl : ℕ
  lru : List (String × Slot)
  expq : List String

/-- The whole mutable process state: the metrics cache, the instance
store, and the collector registry. -/
structure EngineState where
  cache : TTLCacheSt
  store : Store
  registry : List ℕ

/-- Remove one key from both internal structures of the cache. -/
def removeKey (k : String) (c : TTLCacheSt) : TTLCacheSt :=
  { c with lru := c.lru.filter (fun p => p.1 != k),
           expq := c.expq.filter (fun x => x != k) }

/-- Move a key to the most-recently-used end (OrderedDict.move_to_end, as
done by the internal getlink on every access). -/
def moveToEnd (k : String) (c : TTLCacheSt) : TTLCacheSt :=
  match jlookup k c.lru with
  | Option.none => c
  | some slot => { c with lru := c.lru.filter (fun p => p.1 != k) ++ [(k, slot)] }

/-- TTLCache.expire(time): walk the expiry queue in order and drop every
entry whose deadline has passed, stopping at the first live one.  The
removal goes through Cache delitem directly: the registry is NOT touched
(the Cache subclass override of pop is bypassed on this path). -/
def cacheExpire (t : ℕ) (c : TTLCacheSt) : TTLCacheSt :=
  go c.expq c
where
  go : List String → TTLCacheSt → TTLCacheSt
    | [], c => c
    | k :: rest, c =>
      match jlookup k c.lru with
      | some slot => if slot.expires ≤ t then go rest (removeKey k c) else c
      | Option.none => c

/-- TTLCache contains: a key is present when its link exists and its
deadline has not passed (no sweep, no reordering). -/
def cacheContains (c : TTLCacheSt) (k : String) (t : ℕ) : Bool :=
  match jlookup k c.lru with
  | some slot => t < slot.expires
  | Option.none => false

/-- TTLCache getitem: the access moves the key to the recently-used end
(getlink) even when the entry turns out to be expired, in which case a
KeyError is raised. -/
def cacheGet (c : TTLCacheSt) (k : String) (t : ℕ) :
    TTLCacheSt × Except PyErr CEntry :=
  match jlookup k c.lru with
  | Option.none => (c, .error .keyError)
  | some slot =>
    let c' := moveToEnd k c
    if t < slot.expires then (c', .ok slot.entry) else (c', .error .keyError)

/-- Clear a metric instance (MetricWrapperBase.clear resets its children). -/
def clearInstance (store : Store) (iid : ℕ) : Store :=
  match store.get? iid with
  | Option.none => store
  | some inst => store.set iid { inst with children := [], infoChildren := [] }

/-- The Cache subclass pop (src/app.py lines 63-68): the inherited pop
looks the key up (KeyError when absent or expired) and deletes it, then
the override clears the popped entry's instance and unregisters it from
the registry (unregister raises KeyError when the instance is not
registered). -/
def cachePop (k : String) (t : ℕ) (es : EngineState) :
    EngineState × Except PyErr CEntry :=
  if cacheContains es.cache k t then
    match jlookup k es.cache.lru with
    | Option.none => (es, .error .keyError)
    | some slot =>
      let c1 := removeKey k (moveToEnd k es.cache)
      let store1 := clearInstance es.store slot.entry.iid
      if es.registry.contains slot.entry.iid then
        (⟨c1, store1, es.registry.filter (fun i => i != slot.entry.iid)⟩, .ok slot.entry)
      else (⟨c1, store1, es.registry⟩, .error .keyError)
  else (es, .error .keyError)

/-- TTLCache.popitem: expire, then pop the least recently used key (the
head of the links order); KeyError when the cache is empty.  The pop call
dispatches to the subclass pop, so this eviction path does unregister. -/
def cachePopitem (t : ℕ) (es : EngineState) :
    EngineState × Except PyErr (String × CEntry) :=
  let es1 : EngineState := { es with cache := cacheExpire t es.cache }
  match es1.cache.lru with
  | [] => (es1, .error .keyError)
  | (k, _) :: _ =>
    match cachePop k t es1 with
    | (es2, .ok v) => (es2, .ok (k, v))
    | (es2, .error e) => (es2, .error e)

/-- The eviction loop of Cache setitem: while the size after the pending
insert would exceed maxsize, pop the least recently used item.  The fuel
(one more than the current size) is enough for the loop to either finish
or raise on an emptied cache, exactly as the Python while loop. -/
def evictLoop (t : ℕ) : ℕ → EngineState → EngineState × Except PyErr Unit
  | 0, es => (es, .ok ())
  | n + 1, es =>
    if es.cache.lru.length + 1 > es.cache.maxsize then
      match cachePopitem t es with
      | (es', .ok _) => evictLoop t n es'
      | (es', .error e) => (es', .error e)
    else (es, .ok ())

/-- TTLCache setitem: expire, evict while a new key would overflow
maxsize, then write the entry, moving the key to the recently-used end and
to the back of the expiry queue with a fresh deadline. -/
def cacheSetitem (k : String) (e : CEntry) (t : ℕ) (es : EngineState) :
    EngineState × Except PyErr Unit :=
  let es1 : EngineState := { es with cache := cacheExpire t es.cache }
  let isNew := (jlookup k es1.cache.lru).isNone
  let step :=
    if isNew then evictLoop t (es1.cache.lru.length + 1) es1 else (es1, .ok ())
  match step with
  | (es2, .error e) => (es2, .error e)
  | (es2, .ok _) =>
    let c := es2.cache
    let slot : Slot := ⟨e, t + c.ttl⟩
    let c' : TTLCacheSt :=
      { c with lru := c.lru.filter (fun p => p.1 != k) ++ [(k, slot)],
               expq := c.expq.filter (fun x => x != k) ++ [k] }
    ({ es2 with cache := c' }, .ok ())

/-- One entry of config event_handlers: the event title pattern and the
named extractor specs. -/
structure Handler where
  event_title : String
  extractors : List (String × ExtractorSpec)

/-- The parts of the loaded config the route reads.  webhook_basepath is
optional because the not-found body indexes the raw config dict for it
(raising KeyError when the key is missing), unlike the defaulted module
variable. -/
structure Config where
  handlers : List Handler
  webhook_basepath : Option String

/-- HTTP method of the inbound request; POST covers PUT as well, the code
treats every non-DELETE method the same. -/
inductive Method where
  | POST
  | DELETE
deriving DecidableEq, Repr

/-- A Flask response the handler returns: status code and JSON body (the
200 response has an empty-string body). -/
inductive HttpResponse where
  | response (status : ℕ) (body : JSON)

/-- The body of the no-matching-handler 404 response: the error marker,
the raw config webhook_basepath (KeyError when absent from the config
dict), and one formatted entry per configured handler in order. -/
def notFoundBody (cfg : Config) : Except PyErr JSON :=
  match cfg.webhook_basepath with
  | Option.none => .error .keyError
  | some bp =>
    .ok (.obj
      [("error", .str "not found"),
       ("webhook_basepath", .str bp),
       ("configured_events",
        .arr (cfg.handlers.map
          (fun c => .str (bp ++ "/ + /" ++ c.event_title ++ "/"))))])

/-- receive_webhook_request (src/app.py lines 145-239).  DELETE: membership
test, then pop (or a plain 404).  Otherwise: first handler whose
event_title pattern re.match-es the title (404 with the configured
patterns when none), evaluation of the four extractor chains against the
wrapper dict with the body under data and the request attributes under
req, float() on the extracted value, dict-merge of a list-shaped labels
result, reuse of a cached instance when the key is present, setup_metric,
and the cache write.  An uncaught Python exception is the error component;
state mutations made before the raise are kept. -/
def receive_webhook_request (rematch : String → String → Bool)
    (search : String → String → Option RMatch)
    (jsearch : String → JSON → JSON) (cfg : Config) (es : EngineState)
    (event_title : String) (method : Method) (body reqAttrs : JSON)
    (now : ℕ) : EngineState × Except PyErr HttpResponse :=
  let metric_name := event_title
  match method with
  | .DELETE =>
    if cacheContains es.cache metric_name now = false then
      (es, .ok (.response 404 (.obj [("error", .str "not found")])))
    else
      match cachePop metric_name now es with
      | (es', .ok _) =>
        (es', .ok (.response 202 (.obj [("removed_metric", .str metric_name)])))
      | (es', .error e) => (es', .error e)
  | .POST =>
    match cfg.handlers.find? (fun c => rematch c.event_title event_title) with
    | Option.none =>
      match notFoundBody cfg with
      | .ok b => (es, .ok (.response 404 b))
      | .error e => (es, .error e)
    | some handler =>
      let mex := handler.extractors
      let jd : JSON := .obj [("data", body), ("req", reqAttrs)]
      let getSpec := fun (f : String) => (jlookup f mex).getD (.single .none)
      match run_extractor search jsearch (getSpec "help") jd (.str "default help") with
      | .error e => (es, .error e)
      | .ok helpV =>
      match run_extractor search jsearch (getSpec "type") jd (.str "gauge") with
      | .error e => (es, .error e)
      | .ok mtypeV =>
      match run_extractor search jsearch (getSpec "value") jd .null with
      | .error e => (es, .error e)
      | .ok rawV =>
      match pyFloat rawV with
      | .error e => (es, .error e)
      | .ok v =>
      match run_extractor search jsearch (getSpec "labels") jd
          (.obj [("warn", .str "label extraction failed")]) with
      | .error e => (es, .error e)
      | .ok labels0 =>
      match (match labels0 with | .arr xs => mergeDicts xs | l => .ok l) with
      | .error e => (es, .error e)
      | .ok labelsV =>
        let key := metric_name
        let lookupOld : TTLCacheSt × Except PyErr (Option ℕ) :=
          if cacheContains es.cache key now then
            match cacheGet es.cache key now with
            | (c', .ok entry) => (c', .ok (some entry.iid))
            | (c', .error e) => (c', .error e)
          else (es.cache, .ok Option.none)
        match lookupOld with
        | (c1, .error e) => ({ es with cache := c1 }, .error e)
        | (c1, .ok old) =>
          let es1 : EngineState := { es with cache := c1 }
          match setup_metric es1.store es1.registry mtypeV metric_name helpV labelsV v old with
          | (store2, reg2, .error e) =>
            ({ es1 with store := store2, registry := reg2 }, .error e)
          | (store2, reg2, .ok iid) =>
            let es2 : EngineState := { es1 with store := store2, registry := reg2 }
            let entry : CEntry := ⟨iid, metric_name, helpV, mtypeV, v, labelsV⟩
            match cacheSetitem key entry now es2 with
            | (es3, .ok _) => (es3, .ok (.response 200 (.str "")))
            | (es3, .error e) => (es3, .error e)

/-- The label-value tuple labels(...) computes for an instance from a
label dict (the payload of a successful labelsFor). -/
def labelValues (inst : Instance) (fields : List (String × JSON)) : List JSON :=
  inst.labelnames.map (fun n => (jlookup n fields).getD JSON.null)

/-- A sequence of upserts on one counter key with a cached instance: each
step is the setup_metric call the route performs for kind counter with the
existing instance, stopping at the first raised exception. -/
def counterIter (store : Store) (registry : List ℕ) (metric_name : String)
    (help labels : JSON) (iid : ℕ) : List ℚ → Store × List ℕ × Except PyErr Unit
  | [] => (store, registry, .ok ())
  | v :: vs =>
    match setup_metric store registry (.str "counter") metric_name help labels v (some iid) with
    | (store', registry', .ok _) => counterIter store' registry' metric_name help labels iid vs
    | (store', registry', .error e) => (store', registry', .error e)

/-! Concrete scenario states used by the claim theorems. -/

/-- An engine state with the default cache bounds (max_size 128, ttl 600)
and nothing registered. -/
def esEmpty : EngineState := ⟨⟨128, 600, [], []⟩, [], []⟩

/-- A one-rule config whose pattern matches every title and whose value
extractor reads the v field of the posted document (under the data
wrapper). -/
def cfgDataV : Config :=
  ⟨[⟨"", [("value", .single (.str "data.v"))]⟩], some "/webhook"⟩

/-- The same rule but with the value query missing the data prefix. -/
def cfgBareV : Config :=
  ⟨[⟨"", [("value", .single (.str "v"))]⟩], some "/webhook"⟩

/-- A one-rule config with no extractors configured at all. -/
def cfgNoExtractors : Config := ⟨[⟨"", []⟩], some "/webhook"⟩

/-- A posted document with a numeric v field. -/
def bodyV5 : JSON := .obj [("v", .num 5)]

/-- First request of the TTL-leak trace: create metric a at time 0. -/
def c1Step1 : EngineState × Except PyErr HttpResponse :=
  receive_webhook_request reMatchLit reSearchLit jmespathFieldSearch
    cfgDataV esEmpty "a" .POST bodyV5 .null 0

/-- Second request of the TTL-leak trace: create metric b at time 600,
exactly when the entry for a expires (ttl 600). -/
def c1Step2 : EngineState × Except PyErr HttpResponse :=
  receive_webhook_request reMatchLit reSearchLit jmespathFieldSearch
    cfgDataV c1Step1.1 "b" .POST bodyV5 .null 600

/-- A registered gauge instance with one label and one child of value 5,
the cached instance of the kind-change counterexample. -/
def gaugeInst : Instance := ⟨.gauge, "m", .str "h", ["l"], [([.str "x"], 5)], []⟩

/-- A registered counter instance with one label and no children yet. -/
def ctrInst : Instance := ⟨.counter, "c", .str "h", ["l"], [], []⟩

/-- Cache entry number i of the cache-bound scenario, stored under key n. -/
def mkEntry (i : ℕ) (n : String) : CEntry := ⟨i, n, .null, .str "gauge", 1, .null⟩

/-- A fresh gauge instance named n for the cache-bound scenario. -/
def namedGauge (n : String) : Instance := ⟨.gauge, n, .null, ["l"], [], []⟩

/-- Cache-bound scenario start: maxsize 3, four instances registered, the
cache still empty. -/
def esBound : EngineState :=
  ⟨⟨3, 600, [], []⟩, [namedGauge "m1", namedGauge "m2", namedGauge "m3", namedGauge "m4"],
   [0, 1, 2, 3]⟩

/-- Insert four distinct keys at time 0 into the maxsize-3 cache. -/
def boundAfter4 : EngineState :=
  (cacheSetitem "k4" (mkEntry 3 "k4") 0
    (cacheSetitem "k3" (mkEntry 2 "k3") 0
      (cacheSetitem "k2" (mkEntry 1 "k2") 0
        (cacheSetitem "k1" (mkEntry 0 "k1") 0 esBound).1).1).1).1

/-! Theorems. -/

/-- C1: the invariant "every cache entry removed from the metrics cache has
its instance unregistered from the registry, by whichever removal path"
fails on the TTL expiry path.  After creating metric a at time 0 (instance
id 0, registered), a second request at time 600 (the configured ttl)
triggers the lazy expiry sweep inside the cache write: the entry for a is
gone from the cache, yet instance 0 is still registered (the sweep goes
through Cache delitem, bypassing the unregistering pop override), so a
metric instance remains registered without a corresponding cache entry. -/
theorem c1_ttl_expiry_skips_unregistration :
    c1Step1.1.cache.lru.map (fun p => (p.1, p.2.entry.iid)) = [("a", 0)] ∧
    c1Step1.1.registry = [0] ∧
    jlookup "a" c1Step2.1.cache.lru = Option.none ∧
    cacheContains c1Step2.1.cache "a" 600 = false ∧
    c1Step2.1.registry = [0, 1] :=
  ⟨rfl, rfl, rfl, rfl, rfl⟩

/-- C2 counterexample: an upsert of kind counter on a key whose cached
instance is a gauge does not return a conflict error: setup_metric reuses
the gauge instance (result ok with the old instance id 0) and increments
its child from 5 to 5 + 2, so reuse across a kind change is not rejected. -/
theorem c2_kind_change_reuses_instance_without_conflict :
    gaugeInst.kind = MKind.gauge ∧
    (setup_metric [gaugeInst] [0] (.str "counter") "m" (.str "h")
        (.obj [("l", .str "x")]) 2 (some 0)).2.2 = .ok 0 ∧
    ((setup_metric [gaugeInst] [0] (.str "counter") "m" (.str "h")
        (.obj [("l", .str "x")]) 2 (some 0)).1.get? 0).map
      (fun i => (i.kind, i.children)) = some (MKind.gauge, [([.str "x"], 5 + 2)]) :=
  ⟨rfl, rfl, rfl⟩

/-- C4 counterexample: a regex stage whose pattern does not match returns
None (null), not the default (here the default is the string gauge); and a
matching pattern with no capture groups raises StopIteration, so the stage
can throw. -/
theorem c4_no_match_returns_none_not_default :
    runStage reSearchLit jmespathFieldSearch (.str "gauge") (.str "abc")
      (.str "/xyz/") = .ok JSON.null ∧
    JSON.null ≠ JSON.str "gauge" ∧
    runStage reSearchLit jmespathFieldSearch (.str "gauge") (.str "abc")
      (.str "/abc/") = .error .stopIteration :=
  ⟨rfl, fun h => JSON.noConfusion h, rfl⟩

/-- C4 amended: the regex stage serializes the intermediate value and
searches; when the pattern does not match the stage yields None (not the
default); when it matches, the first capture group is returned, with the
default substituted only when that group did not participate; when the
pattern has no capture groups at all, StopIteration is raised. -/
theorem c4_regex_stage_behaviour (search : String → String → Option RMatch)
    (jsearch : String → JSON → JSON) (default prev : JSON) (s : String)
    (hs : startsWithSlash s = true) (hne : s ≠ "") :
    runStage search jsearch default prev (.str s) =
      match search (stripSlashes s) (dumps prev) with
      | Option.none => .ok JSON.null
      | some m =>
        match m.groups with
        | [] => .error .stopIteration
        | Option.none :: _ => .ok default
        | some t :: _ => .ok (.str t) := by
  simp only [runStage]
  rw [if_neg hne, if_pos hs]
  rcases search (stripSlashes s) (dumps prev) with _ | ⟨gs⟩
  · rfl
  · rcases gs with _ | ⟨(_ | t), rest⟩ <;> rfl

/-- Witness for the amended C4 statement at a concrete non-matching
pattern. -/
theorem c4_regex_stage_behaviour_witness :
    runStage reSearchLit jmespathFieldSearch (.str "d") (.str "abc")
      (.str "/xyz/") = .ok JSON.null := by
  rw [c4_regex_stage_behaviour reSearchLit jmespathFieldSearch (JSON.str "d")
    (JSON.str "abc") "/xyz/" rfl (by decide)]
  rfl

/-- C5 counterexample: a chain with a falsy first entry does not
short-circuit to the default: the second stage still runs on the default
(here the dict with field a) and the chain yields 1, not the default. -/
theorem c5_falsy_stage_does_not_short_circuit :
    runChain reSearchLit jmespathFieldSearch (.obj [("a", .num 1)]) (.str "doc")
      [.str "", .str "a"] = .ok (.num 1) ∧
    JSON.num 1 ≠ JSON.obj [("a", .num 1)] :=
  ⟨rfl, fun h => JSON.noConfusion h⟩

/-- C5 amended: a falsy stage entry replaces the running intermediate value
with the default and the fold continues: the remaining stages are applied
to the default, so the chain's result is whatever they compute from it. -/
theorem c5_falsy_stage_resets_to_default (search : String → String → Option RMatch)
    (jsearch : String → JSON → JSON) (default data : JSON) (s : Stage)
    (rest : List Stage) (hf : stageFalsy s = true) :
    runChain search jsearch default data (s :: rest) =
      runChain search jsearch default default rest := by
  have hstep : runStage search jsearch default data s = .ok default := by
    cases s with
    | none => rfl
    | str str =>
      simp only [stageFalsy, decide_eq_true_eq] at hf
      simp [runStage, hf]
  unfold runChain
  rw [List.foldlM_cons, hstep]
  rfl

/-- Witness for the amended C5 statement on a concrete chain. -/
theorem c5_falsy_stage_resets_to_default_witness :
    runChain reSearchLit jmespathFieldSearch (.str "D") (.str "x")
      [Stage.none, .str "q"] =
    runChain reSearchLit jmespathFieldSearch (.str "D") (.str "D")
      [.str "q"] :=
  c5_falsy_stage_resets_to_default reSearchLit jmespathFieldSearch
    (.str "D") (.str "x") Stage.none [.str "q"] rfl

/-- C6 counterexample: when the extracted value does not parse as a number
(here the value extractor is not configured, so extraction yields None and
float(None) raises TypeError), the request handler does not return a typed
error response: the exception escapes uncaught (the error component), and
the engine state is untouched. -/
theorem c6_unparseable_value_raises_uncaught :
    receive_webhook_request reMatchLit reSearchLit jmespathFieldSearch
      cfgNoExtractors esEmpty "m" .POST (.obj []) .null 0 =
      (esEmpty, .error .typeError) := rfl

/-- C10: a structured-query stage whose query result is falsy yields the
default, and all of None, False, 0, the empty string, the empty list and
the empty dict are falsy, so a legitimately extracted zero or empty value
is replaced by the default exactly like a failed extraction. -/
theorem c10_falsy_query_result_replaced_by_default :
    (∀ (search : String → String → Option RMatch)
       (jsearch : String → JSON → JSON) (q : String) (prev default : JSON),
      startsWithSlash q = false → q ≠ "" → truthy (jsearch q prev) = false →
      runStage search jsearch default prev (.str q) = .ok default)
    ∧ truthy JSON.null = false ∧ truthy (.bool false) = false
    ∧ truthy (.num 0) = false ∧ truthy (.str "") = false
    ∧ truthy (.arr []) = false ∧ truthy (.obj []) = false := by
  refine ⟨?_, rfl, rfl, rfl, rfl, rfl, rfl⟩
  intro search jsearch q prev default hs hne htr
  simp only [runStage]
  rw [if_neg hne, if_neg (by simp [hs]), htr]
  rfl

/-- Witness for C10: a query returning the number 0 is replaced by the
default. -/
theorem c10_falsy_query_result_witness :
    runStage reSearchLit (fun _ _ => JSON.num 0) (.str "D") JSON.null
      (.str "q") = .ok (.str "D") :=
  c10_falsy_query_result_replaced_by_default.1 reSearchLit
    (fun _ _ => JSON.num 0) "q" JSON.null (.str "D") rfl (by decide) rfl

/-- C9: the route evaluates extractor chains against the wrapper dict, not
the raw body: a one-component field query that is neither data nor req
finds nothing in the wrapper; the same field is reachable under the data
prefix; and concretely, a rule whose value query is v fails with an
uncaught float TypeError while the query data.v succeeds and caches the
body's value 7. -/
theorem c9_queries_address_body_under_data :
    (∀ (body reqA : JSON) (f : String), splitDots f = [f] → f ≠ "data" →
      f ≠ "req" →
      jmespathFieldSearch f (.obj [("data", body), ("req", reqA)]) = JSON.null)
    ∧ jmespathFieldSearch "data.v"
        (.obj [("data", .obj [("v", .num 7)]), ("req", .null)]) = .num 7
    ∧ (receive_webhook_request reMatchLit reSearchLit jmespathFieldSearch
        cfgBareV esEmpty "m" .POST (.obj [("v", .num 7)]) .null 0).2 =
        .error .typeError
    ∧ (receive_webhook_request reMatchLit reSearchLit jmespathFieldSearch
        cfgDataV esEmpty "m" .POST (.obj [("v", .num 7)]) .null 0).2 =
        .ok (.response 200 (.str ""))
    ∧ ((jlookup "m" (receive_webhook_request reMatchLit reSearchLit
        jmespathFieldSearch cfgDataV esEmpty "m" .POST (.obj [("v", .num 7)])
        .null 0).1.cache.lru).map (fun s => s.entry.value)) = some 7 := by
  refine ⟨?_, rfl, rfl, rfl, rfl⟩
  intro body reqA f hsplit hd hr
  simp only [jmespathFieldSearch, hsplit, jmespathFieldSearch.go, jlookup]
  rw [if_neg (fun h => hd h.symm), if_neg (fun h => hr h.symm)]

/-- Witness for the universally quantified part of the C9 statement at the
field v. -/
theorem c9_queries_address_body_witness :
    jmespathFieldSearch "v" (.obj [("data", .obj [("v", .num 7)]),
      ("req", .null)]) = JSON.null :=
  c9_queries_address_body_under_data.1 (.obj [("v", .num 7)]) .null "v"
    rfl (by decide) (by decide)

/-- C8: handler lookup tries the configured rules in declaration order and
the first whose pattern matches the event title wins; and when no rule
matches, the route answers 404 with a body carrying the full ordered list
of configured patterns. -/
theorem c8_first_match_wins_and_404_lists_patterns :
    (∀ (rematch : String → String → Bool) (name : String)
       (pre post : List Handler) (h : Handler),
      (∀ h' ∈ pre, rematch h'.event_title name = false) →
      rematch h.event_title name = true →
      (pre ++ h :: post).find? (fun c => rematch c.event_title name) = some h)
    ∧ (∀ (rematch : String → String → Bool)
        (search : String → String → Option RMatch)
        (jsearch : String → JSON → JSON) (cfg : Config) (es : EngineState)
        (title : String) (body reqA : JSON) (now : ℕ) (bp : String),
      cfg.webhook_basepath = some bp →
      (∀ h' ∈ cfg.handlers, rematch h'.event_title title = false) →
      receive_webhook_request rematch search jsearch cfg es title .POST body
          reqA now =
        (es, .ok (.response 404 (.obj
          [("error", .str "not found"),
           ("webhook_basepath", .str bp),
           ("configured_events", .arr (cfg.handlers.map
             (fun c => .str (bp ++ "/ + /" ++ c.event_title ++ "/"))))])))) := by
  constructor
  · intro rematch name pre post h hpre hh
    induction pre with
    | nil => simp [List.find?, hh]
    | cons a pre ih =>
      have ha : rematch a.event_title name = false := hpre a (by simp)
      simp only [List.cons_append, List.find?, ha, cond_false]
      exact ih (fun h' hm => hpre h' (by simp [hm]))
  · intro rematch search jsearch cfg es title body reqA now bp hbp hno
    have hnone : cfg.handlers.find? (fun c => rematch c.event_title title) =
        Option.none :=
      List.find?_eq_none.mpr (fun x hx => by simp [hno x hx])
    simp only [receive_webhook_request, hnone, notFoundBody, hbp]

/-- Witness for C8: with one configured rule whose pattern does not match,
the route answers the 404 with that rule's pattern listed. -/
theorem c8_first_match_wins_witness :
    receive_webhook_request reMatchLit reSearchLit jmespathFieldSearch
      ⟨[⟨"zzz", []⟩], some "/webhook"⟩ esEmpty "a" .POST .null .null 0 =
    (esEmpty, .ok (.response 404 (.obj
      [("error", .str "not found"),
       ("webhook_basepath", .str "/webhook"),
       ("configured_events", .arr [.str "/webhook/ + /zzz/"])]))) := by
  have h := c8_first_match_wins_and_404_lists_patterns.2 reMatchLit
    reSearchLit jmespathFieldSearch ⟨[⟨"zzz", []⟩], some "/webhook"⟩ esEmpty
    "a" .null .null 0 "/webhook" rfl (by intro h' hm; simp at hm; subst hm; rfl)
  simpa using h

/-- C6 amended: when the handler is found and the help, type and value
extractions succeed but float() on the extracted value raises, the route
terminates with that uncaught exception: no typed error response is
produced, and the engine state (cache, store, registry) is returned
untouched, so no cache entry is created or updated. -/
theorem c6_value_parse_failure_is_uncaught (rematch : String → String → Bool)
    (search : String → String → Option RMatch)
    (jsearch : String → JSON → JSON) (cfg : Config) (es : EngineState)
    (title : String) (body reqA : JSON) (now : ℕ) (handler : Handler)
    (h1 h2 rv : JSON) (e : PyErr)
    (hfind : cfg.handlers.find? (fun c => rematch c.event_title title) =
      some handler)
    (hhelp : run_extractor search jsearch
      ((jlookup "help" handler.extractors).getD (.single .none))
      (.obj [("data", body), ("req", reqA)]) (.str "default help") = .ok h1)
    (htype : run_extractor search jsearch
      ((jlookup "type" handler.extractors).getD (.single .none))
      (.obj [("data", body), ("req", reqA)]) (.str "gauge") = .ok h2)
    (hval : run_extractor search jsearch
      ((jlookup "value" handler.extractors).getD (.single .none))
      (.obj [("data", body), ("req", reqA)]) .null = .ok rv)
    (hfl : pyFloat rv = .error e) :
    receive_webhook_request rematch search jsearch cfg es title .POST body
      reqA now = (es, .error e) := by
  simp only [receive_webhook_request, hfind, hhelp, htype, hval, hfl]

/-- Witness for the amended C6 statement: a rule with no value extractor
leaves the value None and float(None) raises TypeError, surfacing as the
uncaught-error outcome with the state unchanged. -/
theorem c6_value_parse_failure_witness :
    receive_webhook_request reMatchLit reSearchLit jmespathFieldSearch
      cfgNoExtractors esEmpty "w" .POST (.obj []) .null 0 =
      (esEmpty, .error .typeError) :=
  c6_value_parse_failure_is_uncaught reMatchLit reSearchLit
    jmespathFieldSearch cfgNoExtractors esEmpty "w" (.obj []) .null 0
    ⟨"", []⟩ (.str "default help") (.str "gauge") JSON.null .typeError
    rfl rfl rfl rfl rfl

/-- A successful applyMeth always returns the very instance id it was
given and leaves the registry unchanged. -/
theorem applyMeth_ok_reuses (store : Store) (reg : List ℕ) (iid : ℕ)
    (fields : List (String × JSON)) (m : Meth) (store' : Store)
    (reg' : List ℕ) (riid : ℕ)
    (h : applyMeth store reg iid fields m = (store', reg', .ok riid)) :
    riid = iid ∧ reg' = reg := by
  unfold applyMeth at h
  split at h
  · simp at h
  · split at h
    · simp at h
    · split at h
      · simp at h
      · simp only [Prod.mk.injEq, Except.ok.injEq] at h
        exact ⟨h.2.2.symm, h.2.1.symm⟩

/-- C2 amended: whenever an upsert finds a cached instance, setup_metric
reuses that very instance unconditionally — any successful call with an
old_instance returns exactly that instance id, with no new registration,
regardless of the requested kind; and when the label-name set differs from
the cached instance's, the call raises ValueError from the metric
library's labels() (an uncaught exception), not a typed conflict result. -/
theorem c2_reuse_is_unconditional :
    (∀ (store : Store) (reg : List ℕ) (mtype : JSON) (name : String)
       (help labels : JSON) (v : ℚ) (iid : ℕ) (store' : Store)
       (reg' : List ℕ) (riid : ℕ),
      setup_metric store reg mtype name help labels v (some iid) =
        (store', reg', .ok riid) → riid = iid ∧ reg' = reg)
    ∧ (∀ (store : Store) (reg : List ℕ) (t name : String) (help : JSON)
        (fields : List (String × JSON)) (v : ℚ) (iid : ℕ) (inst : Instance),
      t ∈ (["gauge", "counter", "info"] : List String) →
      store.get? iid = some inst →
      fields ≠ [] →
      sortStrings (fields.map (·.1)) ≠ sortStrings inst.labelnames →
      (setup_metric store reg (.str t) name help (.obj fields) v
        (some iid)).2.2 = .error .valueError) := by
  constructor
  · intro store reg mtype name help labels v iid store' reg' riid h
    cases mtype with
    | str t =>
      cases labels with
      | obj fields =>
        simp only [setup_metric] at h
        split_ifs at h with h1 h2 h3 h4
        · simp at h
        · exact applyMeth_ok_reuses store reg iid fields _ store' reg' riid h
        · exact applyMeth_ok_reuses store reg iid fields _ store' reg' riid h
        · exact applyMeth_ok_reuses store reg iid fields _ store' reg' riid h
        · simp at h
      | null => simp [setup_metric] at h
      | bool b => simp [setup_metric] at h
      | num q => simp [setup_metric] at h
      | str s => simp [setup_metric] at h
      | arr xs => simp [setup_metric] at h
    | null => simp [setup_metric] at h
    | bool b => simp [setup_metric] at h
    | num q => simp [setup_metric] at h
    | arr xs => simp [setup_metric] at h
    | obj fs => simp [setup_metric] at h
  · intro store reg t name help fields v iid inst ht hget hfe hmis
    have hfeB : fields.isEmpty = false := by
      cases fields
      · exact absurd rfl hfe
      · rfl
    have hlf : labelsFor inst fields = .error .valueError := by
      unfold labelsFor
      rw [if_neg hmis]
    have hget' : store[iid]? = some inst := by
      simpa [List.get?_eq_getElem?] using hget
    have happ : ∀ m : Meth,
        applyMeth store reg iid fields m = (store, reg, .error .valueError) := by
      intro m
      simp [applyMeth, hget', hlf]
    simp only [List.mem_cons, List.mem_singleton, List.not_mem_nil, or_false] at ht
    rcases ht with rfl | rfl | rfl <;>
      simp [setup_metric, createOrReuse, hfeB, happ]

/-- Witness for the amended C2 statement: a gauge upsert on a cached gauge
instance with matching labels succeeds, returning the cached instance id 0
and the unchanged registry. -/
theorem c2_reuse_is_unconditional_witness : 0 = 0 ∧ ([0] : List ℕ) = [0] :=
  c2_reuse_is_unconditional.1 [gaugeInst] [0] (.str "gauge") "m" (.str "h")
    (.obj [("l", .str "x")]) 3 0
    [⟨.gauge, "m", .str "h", ["l"], [([.str "x"], 3)], []⟩] [0] 0 rfl

mutual

/-- Structural JSON equality is reflexive. -/
theorem jsonEqB_refl : ∀ a : JSON, jsonEqB a a = true
  | .null => rfl
  | .bool b => by simp [jsonEqB]
  | .num q => by simp [jsonEqB]
  | .str s => by simp [jsonEqB]
  | .arr xs => by simp only [jsonEqB]; exact jarrEqB_refl xs
  | .obj fs => by simp only [jsonEqB]; exact jobjEqB_refl fs

theorem jarrEqB_refl : ∀ xs : List JSON, jarrEqB xs xs = true
  | [] => rfl
  | x :: xs => by
    simp only [jarrEqB, Bool.and_eq_true]
    exact ⟨jsonEqB_refl x, jarrEqB_refl xs⟩

theorem jobjEqB_refl : ∀ fs : List (String × JSON), jobjEqB fs fs = true
  | [] => rfl
  | (k, v) :: fs => by
    simp only [jobjEqB, Bool.and_eq_true, beq_self_eq_true, true_and]
    exact ⟨jsonEqB_refl v, jobjEqB_refl fs⟩

end

/-- After storing a value for a label tuple, looking that tuple up again
yields the stored value. -/
theorem setChildList_val (l : List (List JSON × ℚ)) (lv : List JSON) (q : ℚ) :
    ((setChildList l lv q).find? (fun p => jarrEqB p.1 lv)).map (·.2) =
      some q := by
  induction l with
  | nil => simp [setChildList, List.find?, jarrEqB_refl]
  | cons p rest ih =>
    cases hb : jarrEqB p.1 lv with
    | true => simp [setChildList, hb, List.find?]
    | false => simpa [setChildList, hb, List.find?] using ih

/-- childVal after setChild at the same label tuple is the stored value. -/
theorem childVal_setChild (inst : Instance) (lv : List JSON) (q : ℚ) :
    childVal (setChild inst lv q) lv = q := by
  have h := setChildList_val inst.children lv q
  unfold childVal setChild
  cases hf : (setChildList inst.children lv q).find?
      (fun p => jarrEqB p.1 lv) with
  | none => rw [hf] at h; simp at h
  | some pr => rw [hf] at h; simpa using h

/-- One counter upsert with a cached instance and a non-negative delta:
setup_metric increments the child of the existing instance by the delta
and returns its id. -/
theorem counter_step (store : Store) (reg : List ℕ) (name : String)
    (help : JSON) (fields : List (String × JSON)) (v : ℚ) (iid : ℕ)
    (inst : Instance) (hget : store.get? iid = some inst)
    (hkind : inst.kind = .counter) (hfe : fields.isEmpty = false)
    (hnames : sortStrings (fields.map (·.1)) = sortStrings inst.labelnames)
    (hv : 0 ≤ v) :
    setup_metric store reg (.str "counter") name help (.obj fields) v
        (some iid) =
      (store.set iid (setChild inst (labelValues inst fields)
        (childVal inst (labelValues inst fields) + v)), reg, .ok iid) := by
  have hget' : store[iid]? = some inst := by
    simpa [List.get?_eq_getElem?] using hget
  have hlf : labelsFor inst fields = .ok (labelValues inst fields) := by
    unfold labelsFor labelValues
    rw [if_pos hnames]
  have hcm : callMethod inst (labelValues inst fields) (.inc v) =
      .ok (setChild inst (labelValues inst fields)
        (childVal inst (labelValues inst fields) + v)) := by
    simp [callMethod, hkind, not_lt.mpr hv]
  simp [setup_metric, createOrReuse, applyMeth, hfe, hget', hlf, hcm]

/-- One counter upsert with a cached instance and a negative delta:
setup_metric raises ValueError from the child inc and mutates nothing. -/
theorem counter_step_negative (store : Store) (reg : List ℕ) (name : String)
    (help : JSON) (fields : List (String × JSON)) (v : ℚ) (iid : ℕ)
    (inst : Instance) (hget : store.get? iid = some inst)
    (hkind : inst.kind = .counter) (hfe : fields.isEmpty = false)
    (hnames : sortStrings (fields.map (·.1)) = sortStrings inst.labelnames)
    (hv : v < 0) :
    setup_metric store reg (.str "counter") name help (.obj fields) v
      (some iid) = (store, reg, .error .valueError) := by
  have hget' : store[iid]? = some inst := by
    simpa [List.get?_eq_getElem?] using hget
  have hlf : labelsFor inst fields = .ok (labelValues inst fields) := by
    unfold labelsFor labelValues
    rw [if_pos hnames]
  have hcm : callMethod inst (labelValues inst fields) (.inc v) =
      .error .valueError := by
    simp [callMethod, hkind, hv]
  simp [setup_metric, createOrReuse, applyMeth, hfe, hget', hlf, hcm]

/-- C3: iterating counter upserts on one key with non-negative deltas and
the cached instance accumulates exactly the sum of the deltas into the
exported child value (the registry untouched, the instance reused); and a
single upsert with a negative delta raises ValueError and leaves the store
unchanged, so the counter value stays as it was. -/
theorem c3_counter_sum_and_negative_rejection :
    (∀ (vs : List ℚ) (store : Store) (reg : List ℕ) (name : String)
       (help : JSON) (fields : List (String × JSON)) (iid : ℕ)
       (inst : Instance),
      store.get? iid = some inst →
      inst.kind = .counter →
      fields ≠ [] →
      sortStrings (fields.map (·.1)) = sortStrings inst.labelnames →
      (∀ v ∈ vs, 0 ≤ v) →
      ∃ (store' : Store) (inst' : Instance),
        counterIter store reg name help (.obj fields) iid vs =
          (store', reg, .ok ()) ∧
        store'.get? iid = some inst' ∧
        inst'.kind = .counter ∧
        inst'.labelnames = inst.labelnames ∧
        childVal inst' (labelValues inst fields) =
          childVal inst (labelValues inst fields) + vs.sum)
    ∧ (∀ (store : Store) (reg : List ℕ) (name : String) (help : JSON)
        (fields : List (String × JSON)) (v : ℚ) (iid : ℕ) (inst : Instance),
      store.get? iid = some inst →
      inst.kind = .counter →
      fields ≠ [] →
      sortStrings (fields.map (·.1)) = sortStrings inst.labelnames →
      v < 0 →
      setup_metric store reg (.str "counter") name help (.obj fields) v
        (some iid) = (store, reg, .error .valueError)) := by
  constructor
  · intro vs
    induction vs with
    | nil =>
      intro store reg name help fields iid inst hget hkind hfe hnames hvs
      exact ⟨store, inst, rfl, hget, hkind, rfl, by simp⟩
    | cons v vs ih =>
      intro store reg name help fields iid inst hget hkind hfe hnames hvs
      have hfeB : fields.isEmpty = false := by
        cases fields
        · exact absurd rfl hfe
        · rfl
      have hv : 0 ≤ v := hvs v (by simp)
      have hstep := counter_step store reg name help fields v iid inst hget
        hkind hfeB hnames hv
      set lv := labelValues inst fields with hlv
      set inst1 := setChild inst lv (childVal inst lv + v) with hinst1
      have hlen : iid < store.length := by
        rcases List.get?_eq_some.mp hget with ⟨hlt, _⟩
        exact hlt
      have hget1 : (store.set iid inst1).get? iid = some inst1 := by
        rw [List.get?_eq_getElem?]
        exact List.getElem?_set_eq_of_lt inst1 hlen
      have hk1 : inst1.kind = .counter := hkind
      have hn1 : inst1.labelnames = inst.labelnames := rfl
      have hlv1 : labelValues inst1 fields = labelValues inst fields := rfl
      obtain ⟨store', inst', hiter, hget', hkind', hnames', hval⟩ :=
        ih (store.set iid inst1) reg name help fields iid inst1 hget1 hk1
          (by exact hfe) (by rw [hn1]; exact hnames) (fun w hw => hvs w (by simp [hw]))
      refine ⟨store', inst', ?_, hget', hkind', by rw [hnames']; exact hn1, ?_⟩
      · unfold counterIter
        rw [hstep]
        exact hiter
      · rw [hlv1] at hval
        rw [hval, childVal_setChild]
        rw [List.sum_cons]
        ring
  · intro store reg name help fields v iid inst hget hkind hfe hnames hv
    have hfeB : fields.isEmpty = false := by
      cases fields
      · exact absurd rfl hfe
      · rfl
    exact counter_step_negative store reg name help fields v iid inst hget
      hkind hfeB hnames hv

/-- Witness for C3: two counter upserts of 1 and 2 on a fresh counter
instance leave the exported child value at 0 + (1 + 2). -/
theorem c3_counter_sum_witness :
    ∃ (store' : Store) (inst' : Instance),
      counterIter [ctrInst] [0] "c" (.str "h") (.obj [("l", .str "x")]) 0
        [1, 2] = (store', [0], .ok ()) ∧
      store'.get? 0 = some inst' ∧
      inst'.kind = .counter ∧
      inst'.labelnames = ctrInst.labelnames ∧
      childVal inst' (labelValues ctrInst [("l", .str "x")]) =
        childVal ctrInst (labelValues ctrInst [("l", .str "x")]) +
          ([1, 2] : List ℚ).sum :=
  c3_counter_sum_and_negative_rejection.1 [1, 2] [ctrInst] [0] "c" (.str "h")
    [("l", .str "x")] 0 ctrInst rfl rfl (by simp) rfl
    (by intro v hv; simp at hv; rcases hv with rfl | rfl <;> norm_num)

/-- Filtering a key that is present strictly shrinks an association list. -/
theorem jlookup_filter_lt {α : Type} (k : String) (l : List (String × α))
    (h : (jlookup k l).isSome = true) :
    (l.filter (fun p => p.1 != k)).length < l.length := by
  induction l with
  | nil => simp [jlookup] at h
  | cons p rest ih =>
    by_cases hk : p.1 = k
    · have hb : (p.1 != k) = false := by simp [hk]
      simp only [List.filter_cons, hb, Bool.false_eq_true, if_false,
        List.length_cons]
      exact Nat.lt_succ_of_le (List.length_filter_le _ _)
    · have hb : (p.1 != k) = true := by simp [hk]
      have h' : (jlookup k rest).isSome = true := by
        simpa [jlookup, hk] using h
      simp only [List.filter_cons, hb, if_true, List.length_cons]
      exact Nat.succ_lt_succ (ih h')

/-- moveToEnd does not change maxsize. -/
theorem moveToEnd_maxsize (k : String) (c : TTLCacheSt) :
    (moveToEnd k c).maxsize = c.maxsize := by
  unfold moveToEnd
  cases jlookup k c.lru <;> rfl

/-- moveToEnd does not change ttl. -/
theorem moveToEnd_ttl (k : String) (c : TTLCacheSt) :
    (moveToEnd k c).ttl = c.ttl := by
  unfold moveToEnd
  cases jlookup k c.lru <;> rfl

/-- Popping a present key via getitem-then-delitem strictly shrinks the
use-ordered list. -/
theorem removeKey_moveToEnd_lru_lt (k : String) (c : TTLCacheSt)
    (h : (jlookup k c.lru).isSome = true) :
    (removeKey k (moveToEnd k c)).lru.length < c.lru.length := by
  unfold moveToEnd
  cases hk : jlookup k c.lru with
  | none => rw [hk] at h; simp at h
  | some slot =>
    simp only [removeKey, List.filter_append]
    have h1 : List.filter (fun (p : String × Slot) => p.1 != k) [(k, slot)] =
        [] := by simp
    rw [h1, List.append_nil, List.filter_filter]
    have h2 : (fun (p : String × Slot) => (p.1 != k) && (p.1 != k)) =
        (fun p => p.1 != k) := by
      funext p
      exact Bool.and_self _
    rw [h2]
    exact jlookup_filter_lt k c.lru (by rw [hk]; rfl)

/-- The lazy expiry sweep preserves the bounds and never grows the cache. -/
theorem cacheExpire_spec (t : ℕ) (c : TTLCacheSt) :
    (cacheExpire t c).maxsize = c.maxsize ∧ (cacheExpire t c).ttl = c.ttl ∧
    (cacheExpire t c).lru.length ≤ c.lru.length := by
  unfold cacheExpire
  generalize c.expq = ks
  induction ks generalizing c with
  | nil => exact ⟨rfl, rfl, le_refl _⟩
  | cons k rest ih =>
    cases hk : jlookup k c.lru with
    | none => simp [cacheExpire.go, hk]
    | some slot =>
      by_cases hexp : slot.expires ≤ t
      · simp only [cacheExpire.go, hk, if_pos hexp]
        obtain ⟨h1, h2, h3⟩ := ih (removeKey k c)
        exact ⟨h1, h2, h3.trans (List.length_filter_le _ _)⟩
      · simp [cacheExpire.go, hk, hexp]

/-- A true containment test implies the key has a link. -/
theorem cacheContains_isSome (c : TTLCacheSt) (k : String) (t : ℕ)
    (h : cacheContains c k t = true) : (jlookup k c.lru).isSome = true := by
  unfold cacheContains at h
  cases hk : jlookup k c.lru with
  | none => rw [hk] at h; simp at h
  | some slot => rfl

/-- The subclass pop preserves the bounds, never grows the cache, and
strictly shrinks it whenever it succeeds. -/
theorem cachePop_spec (k : String) (t : ℕ) (es : EngineState) :
    (cachePop k t es).1.cache.maxsize = es.cache.maxsize ∧
    (cachePop k t es).1.cache.ttl = es.cache.ttl ∧
    (cachePop k t es).1.cache.lru.length ≤ es.cache.lru.length ∧
    (∀ v, (cachePop k t es).2 = .ok v →
      (cachePop k t es).1.cache.lru.length < es.cache.lru.length) := by
  by_cases hc : cacheContains es.cache k t = true
  · cases hk : jlookup k es.cache.lru with
    | none =>
      simp only [cachePop, hc, hk, if_true]
      exact ⟨by trivial, by trivial, le_refl _, by intro v hv; simp at hv⟩
    | some slot =>
      have hlt : (removeKey k (moveToEnd k es.cache)).lru.length <
          es.cache.lru.length :=
        removeKey_moveToEnd_lru_lt k es.cache (by rw [hk]; rfl)
      have hms : (removeKey k (moveToEnd k es.cache)).maxsize =
          es.cache.maxsize := moveToEnd_maxsize k es.cache
      have htt : (removeKey k (moveToEnd k es.cache)).ttl = es.cache.ttl :=
        moveToEnd_ttl k es.cache
      by_cases hreg : es.registry.contains slot.entry.iid = true
      · simp only [cachePop, hc, hk, hreg, if_true]
        exact ⟨hms, htt, le_of_lt hlt, fun v _ => hlt⟩
      · simp only [cachePop, hc, hk, hreg, if_true, Bool.false_eq_true,
          if_false]
        exact ⟨hms, htt, le_of_lt hlt, fun v _ => hlt⟩
  · simp only [cachePop, hc, Bool.false_eq_true, if_false]
    exact ⟨by trivial, by trivial, le_refl _, by intro v hv; simp at hv⟩

/-- Eviction of the least recently used entry preserves the bounds, never
grows the cache, and strictly shrinks it whenever it succeeds. -/
theorem cachePopitem_spec (t : ℕ) (es : EngineState) :
    (cachePopitem t es).1.cache.maxsize = es.cache.maxsize ∧
    (cachePopitem t es).1.cache.ttl = es.cache.ttl ∧
    (cachePopitem t es).1.cache.lru.length ≤ es.cache.lru.length ∧
    (∀ v, (cachePopitem t es).2 = .ok v →
      (cachePopitem t es).1.cache.lru.length < es.cache.lru.length) := by
  obtain ⟨he1, he2, he3⟩ := cacheExpire_spec t es.cache
  simp only [cachePopitem]
  cases hl : (cacheExpire t es.cache).lru with
  | nil =>
    refine ⟨he1, he2, by dsimp only; exact he3, ?_⟩
    intro v hv
    simp at hv
  | cons hd tl =>
    obtain ⟨k0, slot0⟩ := hd
    dsimp only
    have hpop := cachePop_spec k0 t { es with cache := cacheExpire t es.cache }
    cases hp : cachePop k0 t { es with cache := cacheExpire t es.cache } with
    | mk es2 r2 =>
      rw [hp] at hpop
      obtain ⟨p1, p2, p3, p4⟩ := hpop
      cases r2 with
      | ok v =>
        dsimp only
        refine ⟨p1.trans he1, p2.trans he2, (p3.trans he3), ?_⟩
        intro w hw
        exact lt_of_lt_of_le (p4 v rfl) he3
      | error e =>
        dsimp only
        refine ⟨p1.trans he1, p2.trans he2, (p3.trans he3), ?_⟩
        intro w hw
        simp at hw

/-- The eviction loop preserves the bounds and never grows the cache; when
it finishes normally with enough fuel, the cache has room for one more
entry. -/
theorem evictLoop_spec (t : ℕ) : ∀ (fuel : ℕ) (es : EngineState),
    (evictLoop t fuel es).1.cache.maxsize = es.cache.maxsize ∧
    (evictLoop t fuel es).1.cache.ttl = es.cache.ttl ∧
    (evictLoop t fuel es).1.cache.lru.length ≤ es.cache.lru.length ∧
    ((evictLoop t fuel es).2 = .ok () → fuel ≥ es.cache.lru.length + 1 →
      (evictLoop t fuel es).1.cache.lru.length + 1 ≤
        (evictLoop t fuel es).1.cache.maxsize) := by
  intro fuel
  induction fuel with
  | zero =>
    intro es
    exact ⟨rfl, rfl, le_refl _, by intro _ hf; omega⟩
  | succ n ih =>
    intro es
    by_cases hcond : es.cache.lru.length + 1 > es.cache.maxsize
    · simp only [evictLoop, if_pos hcond]
      have hpi := cachePopitem_spec t es
      cases hp : cachePopitem t es with
      | mk es1 r1 =>
        rw [hp] at hpi
        obtain ⟨p1, p2, p3, p4⟩ := hpi
        cases r1 with
        | ok v =>
          dsimp only
          have hlt : es1.cache.lru.length < es.cache.lru.length := p4 v rfl
          obtain ⟨q1, q2, q3, q4⟩ := ih es1
          refine ⟨q1.trans p1, q2.trans p2, q3.trans (le_of_lt hlt), ?_⟩
          intro hok hf
          exact q4 hok (by omega)
        | error e =>
          dsimp only
          refine ⟨p1, p2, p3, ?_⟩
          intro hok
          simp at hok
    · simp only [evictLoop, if_neg hcond]
      refine ⟨by trivial, by trivial, le_refl _, ?_⟩
      intro _ _
      omega

/-- A cache write preserves the size bound. -/
theorem cacheSetitem_preserves_bound (k : String) (e : CEntry) (t : ℕ)
    (es : EngineState) (hinv : es.cache.lru.length ≤ es.cache.maxsize) :
    (cacheSetitem k e t es).1.cache.lru.length ≤
      (cacheSetitem k e t es).1.cache.maxsize := by
  obtain ⟨he1, he2, he3⟩ := cacheExpire_spec t es.cache
  simp only [cacheSetitem]
  by_cases hnew : (jlookup k (cacheExpire t es.cache).lru).isNone = true
  · rw [if_pos hnew]
    have hev := evictLoop_spec t ((cacheExpire t es.cache).lru.length + 1)
      { es with cache := cacheExpire t es.cache }
    cases hp : evictLoop t ((cacheExpire t es.cache).lru.length + 1)
        { es with cache := cacheExpire t es.cache } with
    | mk es2 r2 =>
      rw [hp] at hev
      obtain ⟨q1, q2, q3, q4⟩ := hev
      cases r2 with
      | error e2 =>
        dsimp only
        calc es2.cache.lru.length
            ≤ (cacheExpire t es.cache).lru.length := q3
          _ ≤ es.cache.lru.length := he3
          _ ≤ es.cache.maxsize := hinv
          _ = es2.cache.maxsize := (q1.trans he1).symm
      | ok u =>
        dsimp only
        have hroom : es2.cache.lru.length + 1 ≤ es2.cache.maxsize :=
          q4 (by cases u; rfl) (le_refl _)
        calc (es2.cache.lru.filter (fun (p : String × Slot) => p.1 != k) ++
              [(k, (⟨e, t + es2.cache.ttl⟩ : Slot))]).length
            = (es2.cache.lru.filter (fun p => p.1 != k)).length + 1 := by simp
          _ ≤ es2.cache.lru.length + 1 :=
              Nat.succ_le_succ (List.length_filter_le _ _)
          _ ≤ es2.cache.maxsize := hroom
  · rw [if_neg hnew]
    have hsome : (jlookup k (cacheExpire t es.cache).lru).isSome = true := by
      cases hj : jlookup k (cacheExpire t es.cache).lru
      · rw [hj] at hnew
        simp at hnew
      · rfl
    have hlt := jlookup_filter_lt k (cacheExpire t es.cache).lru hsome
    dsimp only
    calc ((cacheExpire t es.cache).lru.filter
            (fun (p : String × Slot) => p.1 != k) ++
          [(k, (⟨e, t + (cacheExpire t es.cache).ttl⟩ : Slot))]).length
        = ((cacheExpire t es.cache).lru.filter
            (fun p => p.1 != k)).length + 1 := by simp
      _ ≤ (cacheExpire t es.cache).lru.length := hlt
      _ ≤ es.cache.lru.length := he3
      _ ≤ es.cache.maxsize := hinv
      _ = (cacheExpire t es.cache).maxsize := he1.symm

/-- C7: every cache operation preserves the size bound (a cache within its
maxsize stays within it across writes, pops, LRU evictions and expiry
sweeps); and concretely, inserting maxsize + 1 = 4 distinct keys into an
empty maxsize-3 cache with no TTL expiry leaves exactly the 3 most recent
keys present, with the least-recently-used first key gone and exactly its
instance (id 0) removed from the registry of initially registered
instances 0..3. -/
theorem c7_cache_bound :
    (∀ (k : String) (e : CEntry) (t : ℕ) (es : EngineState),
      es.cache.lru.length ≤ es.cache.maxsize →
      (cacheSetitem k e t es).1.cache.lru.length ≤
        (cacheSetitem k e t es).1.cache.maxsize)
    ∧ (∀ (k : String) (t : ℕ) (es : EngineState),
      es.cache.lru.length ≤ es.cache.maxsize →
      (cachePop k t es).1.cache.lru.length ≤
        (cachePop k t es).1.cache.maxsize)
    ∧ (∀ (t : ℕ) (es : EngineState),
      es.cache.lru.length ≤ es.cache.maxsize →
      (cachePopitem t es).1.cache.lru.length ≤
        (cachePopitem t es).1.cache.maxsize)
    ∧ (∀ (t : ℕ) (c : TTLCacheSt), c.lru.length ≤ c.maxsize →
      (cacheExpire t c).lru.length ≤ (cacheExpire t c).maxsize)
    ∧ esBound.cache.maxsize = 3
    ∧ esBound.registry = [0, 1, 2, 3]
    ∧ boundAfter4.cache.lru.map (·.1) = ["k2", "k3", "k4"]
    ∧ boundAfter4.cache.lru.length = 3
    ∧ jlookup "k1" boundAfter4.cache.lru = Option.none
    ∧ boundAfter4.registry = [1, 2, 3] := by
  refine ⟨cacheSetitem_preserves_bound, ?_, ?_, ?_, rfl, rfl, rfl, rfl, rfl,
    rfl⟩
  · intro k t es hinv
    obtain ⟨p1, _, p3, _⟩ := cachePop_spec k t es
    rw [p1]
    exact p3.trans hinv
  · intro t es hinv
    obtain ⟨p1, _, p3, _⟩ := cachePopitem_spec t es
    rw [p1]
    exact p3.trans hinv
  · intro t c hinv
    obtain ⟨p1, _, p3⟩ := cacheExpire_spec t c
    rw [p1]
    exact p3.trans hinv

/-- Witness for C7: a write into the empty default cache keeps the size
within the bound. -/
theorem c7_cache_bound_witness :
    (cacheSetitem "k" (mkEntry 0 "k") 0 esEmpty).1.cache.lru.length ≤
      (cacheSetitem "k" (mkEntry 0 "k") 0 esEmpty).1.cache.maxsize :=
  c7_cache_bound.1 "k" (mkEntry 0 "k") 0 esEmpty (by simp [esEmpty])

end WebhookCollector
